import Mathlib

/-!
Verification of the CDI (coherent diffraction imaging) reconstruction module
`skxray/cdi.py`: a shallow embedding of its data model and operations, and
theorems settling the specification claims about it.

Modelling conventions:
* numpy N-dimensional arrays of shape `dims : Fin D → ℕ` are functions on the
  index space `Idx dims = ∀ a, ZMod (dims a)`; the periodic (`ZMod`)
  coordinates model numpy's circular `fftshift`/`ifftshift` rolls.
* floating point arithmetic is idealised as exact arithmetic over `ℝ`/`ℂ`;
  configuration scalars that the driver compares against iteration counters
  (`beta`, `start_avg`, `sw_start`, `sw_end`) are kept in `ℚ` so that the
  schedule predicates stay decidable.
* a float computation whose value is non-finite (numpy `nan`/`inf`, produced
  by division by zero) is modelled by `none` in an `Option` result; numpy
  emits these silently (with at most a RuntimeWarning), it does not raise.
* the only statement of the driver that can raise a Python exception on
  shape-compatible inputs is `np.zeros(n_iterations)` with a negative count
  (ValueError: negative dimensions are not allowed); the driver is therefore
  embedded in `Except String`.
* `scipy.ndimage.filters.gaussian_filter` is external library code (not part
  of this repository), so it is an explicit function parameter of
  `find_support` and of the driver.
-/

open Finset

set_option linter.unusedSectionVars false
set_option linter.unusedVariables false

namespace CDI

/-- Index space of an N-dimensional numpy array of shape `dims`. -/
abbrev Idx {D : ℕ} (dims : Fin D → ℕ) := ∀ a, ZMod (dims a)

variable {D : ℕ}

/-- Total number of elements of an array of shape `dims` (`np.size`). -/
def npsize (dims : Fin D → ℕ) : ℕ := ∏ a, dims a

/-- The phase factor e^(2πi/n) underlying numpy's FFT conventions. -/
noncomputable def expUnit (n : ℕ) : ℂ := Complex.exp (2 * Real.pi * Complex.I / n)

section FourierDefs

variable (dims : Fin D → ℕ) [∀ a, NeZero (dims a)]

/-- `np.fft.fftn`: unnormalised forward DFT, kernel e^(-2πi jk/n) per axis. -/
noncomputable def fftn (x : Idx dims → ℂ) : Idx dims → ℂ :=
  fun k => ∑ j, x j * ∏ a, expUnit (dims a) ^ (-(((j a).val : ℤ) * ((k a).val : ℤ)))

/-- `np.fft.ifftn`: inverse DFT, kernel e^(2πi jk/n) per axis, normalised by 1/size. -/
noncomputable def ifftn (x : Idx dims → ℂ) : Idx dims → ℂ :=
  fun j =>
    (∑ k, x k * ∏ a, expUnit (dims a) ^ (((j a).val : ℤ) * ((k a).val : ℤ))) / (npsize dims : ℂ)

/-- The per-axis half-length offset `n // 2` used by the centering shifts. -/
def centerIdx : Idx dims := fun a => ((dims a / 2 : ℕ) : ZMod (dims a))

/-- `np.fft.fftshift`: roll every axis so index 0 moves to the centre;
`(fftshift x)[i] = x[(i - n//2) mod n]` per axis. -/
def fftshift (x : Idx dims → ℂ) : Idx dims → ℂ :=
  fun i => x fun a => i a - centerIdx dims a

/-- `np.fft.ifftshift`: the inverse roll, `(ifftshift x)[i] = x[(i + n//2) mod n]`. -/
def ifftshift (x : Idx dims → ℂ) : Idx dims → ℂ :=
  fun i => x fun a => i a + centerIdx dims a

/-- `_fft_helper = lambda x: ifftshift(fftn(fftshift(x)))` (cdi.py line 102). -/
noncomputable def fft_helper (x : Idx dims → ℂ) : Idx dims → ℂ :=
  ifftshift dims (fftn dims (fftshift dims x))

/-- `_ifft_helper = lambda x: ifftshift(ifftn(fftshift(x)))` (cdi.py line 103). -/
noncomputable def ifft_helper (x : Idx dims → ℂ) : Idx dims → ℂ :=
  ifftshift dims (ifftn dims (fftshift dims x))

end FourierDefs

section OperatorDefs

variable (dims : Fin D → ℕ) [∀ a, NeZero (dims a)]

/-- Default `offset_v` of `pi_modulus` (1e-12 in the source, line 108). -/
noncomputable def offset_default : ℝ := 1e-12

/-- `pi_modulus` (cdi.py lines 106-131): move the object to Fourier space
(scaled by `1/sqrt(size)`), impose the measured magnitude wherever the
measured pattern is strictly positive, and move back (rescaled by
`sqrt(size)`).  Direct translation:
`diff_tmp = _fft_helper(recon_pattern) / np.sqrt(np.size(recon_pattern))`,
`index = diffracted_pattern > 0`,
`diff_tmp[index] = diffracted_pattern[index] * diff_tmp[index] / (np.abs(diff_tmp[index]) + offset_v)`,
`return _ifft_helper(diff_tmp) * np.sqrt(np.size(diffracted_pattern))`
(the two `np.size` calls agree because the arrays share the shape `dims`). -/
noncomputable def pi_modulus (recon_pattern : Idx dims → ℂ)
    (diffracted_pattern : Idx dims → ℝ) (offset_v : ℝ) : Idx dims → ℂ :=
  let diff_tmp : Idx dims → ℂ :=
    fun k => fft_helper dims recon_pattern k / (Real.sqrt (npsize dims) : ℂ)
  let diff_upd : Idx dims → ℂ := fun k =>
    if 0 < diffracted_pattern k then
      (diffracted_pattern k : ℂ) * diff_tmp k / ((Complex.abs (diff_tmp k) : ℝ) + offset_v : ℝ)
    else diff_tmp k
  fun j => ifft_helper dims diff_upd j * (Real.sqrt (npsize dims) : ℂ)

/-- `find_support` (cdi.py lines 134-164): Gaussian-smooth the magnitude of
the object and keep every location whose smoothed value reaches
`sw_threshold` times the smoothed maximum.  `gaussian_filter` is
`scipy.ndimage.filters.gaussian_filter`, external library code, hence an
explicit function argument (array, sigma) ↦ smoothed array. -/
noncomputable def find_support (gaussian_filter : (Idx dims → ℝ) → ℝ → Idx dims → ℝ)
    (sample_obj : Idx dims → ℂ) (sw_sigma sw_threshold : ℝ) : Idx dims → ℝ :=
  let sample_abs : Idx dims → ℝ := fun j => Complex.abs (sample_obj j)
  let conv_fun := gaussian_filter sample_abs sw_sigma
  let conv_max := Finset.univ.sup' Finset.univ_nonempty conv_fun
  fun j => if sw_threshold * conv_max ≤ conv_fun j then 1 else 0

/-- `pi_support` (cdi.py lines 167-185): copy the object and zero every entry
at an index flagged by the boolean outside-support array `index_v`. -/
def pi_support (sample_obj : Idx dims → ℂ) (index_v : Idx dims → Bool) : Idx dims → ℂ :=
  fun j => if index_v j then 0 else sample_obj j

/-- Euclidean (Frobenius) norm of an array, `np.linalg.norm`. -/
noncomputable def arrNorm (x : Idx dims → ℂ) : ℝ :=
  Real.sqrt (∑ j, Complex.abs (x j) ^ 2)

/-- `cal_relative_error` (cdi.py lines 188-205):
`np.linalg.norm(x_new - x_old) / np.linalg.norm(x_old)`.
When the reference norm is zero the float quotient is non-finite
(`inf` or `nan`, with at most a RuntimeWarning, no exception); the
non-finite outcome is modelled by `none`. -/
noncomputable def cal_relative_error (x_old x_new : Idx dims → ℂ) : Option ℝ :=
  if arrNorm dims x_old = 0 then none
  else some (arrNorm dims (fun j => x_new j - x_old j) / arrNorm dims x_old)

/-- `cal_diff_error` (cdi.py lines 208-225):
`new_diff = np.abs(_fft_helper(sample_obj)) / np.sqrt(np.size(sample_obj))`
then `cal_relative_error(diffracted_pattern, new_diff)` (both arrays real,
embedded into ℂ for the shared norm computation). -/
noncomputable def cal_diff_error (sample_obj : Idx dims → ℂ)
    (diffracted_pattern : Idx dims → ℝ) : Option ℝ :=
  let new_diff : Idx dims → ℝ :=
    fun k => Complex.abs (fft_helper dims sample_obj k) / Real.sqrt (npsize dims)
  cal_relative_error dims (fun k => (diffracted_pattern k : ℂ)) (fun k => (new_diff k : ℂ))

end OperatorDefs

/-- Python `str.lower()` for the ASCII mode-flag strings consumed by
`cdi_recon` (kernel-evaluable structural recursion over the characters). -/
def strLower (s : String) : String := String.mk (s.data.map Char.toLower)

/-- numpy integer `np.mod` on nonnegative operands: `np.mod(n, 0)` is `0`
(with a RuntimeWarning), unlike Lean where `n % 0 = n`. -/
def npmod (a b : ℕ) : ℕ := if b = 0 then 0 else a % b

section DriverDefs

variable (dims : Fin D → ℕ) [∀ a, NeZero (dims a)]

/-- The three caller-owned numpy arrays passed to `cdi_recon`.  The record
tracks the contents of the caller's buffers, so that the in-place/aliasing
behaviour of the driver (which array objects are written through, cdi.py
lines 351, 386, 396) is expressible. -/
structure CallerArrays (dims : Fin D → ℕ) where
  pattern : Idx dims → ℝ
  obj : Idx dims → ℂ
  sup : Idx dims → ℝ

/-- The loop-invariant data of `cdi_recon`: the configuration arguments plus
the local copy of the diffraction pattern made at line 351
(`diffracted_pattern = np.array(diffracted_pattern)`). -/
structure StepCtx (dims : Fin D → ℕ) where
  gaussian_filter : (Idx dims → ℝ) → ℝ → Idx dims → ℝ
  diffracted_pattern : Idx dims → ℝ
  beta : ℚ
  start_avg : ℚ
  pi_modulus_flag : String
  sw_flag : Bool
  sw_sigma : ℝ
  sw_threshold : ℝ
  sw_start : ℚ
  sw_end : ℚ
  sw_step : ℕ
  n_iterations : ℤ

/-- The mutable per-iteration state of the reconstruction loop:
the object estimate, the outside-support boolean index, the support snapshot
`sup_old`, the averaging accumulator and count, and the three error
histories (numpy arrays indexed by the iteration number; the embedding uses
total functions on ℕ whose values past `n_iterations` are never written). -/
structure LoopState (dims : Fin D → ℕ) where
  sample_obj : Idx dims → ℂ
  sup_out_index : Idx dims → Bool
  sup_old : Idx dims → ℝ
  obj_avg : Idx dims → ℂ
  avg_i : ℕ
  obj_error : ℕ → Option ℝ
  diff_error : ℕ → Option ℝ
  sup_error : ℕ → ℝ

/-- The shrinkwrap trigger (cdi.py lines 392-394): shrinkwrap is enabled,
`n >= sw_start * n_iterations`, `n <= sw_end * n_iterations`, and
`np.mod(n, sw_step) == 0`. -/
def sw_fires (ctx : StepCtx dims) (n : ℕ) : Bool :=
  ctx.sw_flag && decide (ctx.sw_start * (ctx.n_iterations : ℚ) ≤ (n : ℚ))
    && decide ((n : ℚ) ≤ ctx.sw_end * (ctx.n_iterations : ℚ))
    && decide (npmod n ctx.sw_step = 0)

/-- Whether iteration `n` contributes to the running average
(cdi.py line 401: `n > start_avg * n_iterations`). -/
def avg_contrib (ctx : StepCtx dims) (n : ℕ) : Bool :=
  decide (ctx.start_avg * (ctx.n_iterations : ℚ) < (n : ℚ))

/-- One iteration of the reconstruction loop (cdi.py lines 369-406).
`gamma_1 = -1/beta` and `gamma_2 = 1/beta` are computed from `beta` exactly
as at lines 353-354.  `pi_modulus` is called with its default offset.
The shrinkwrap branch calls `find_support` on the just-updated object,
records the total of the previous snapshot `sup_old` into slot `n` of
`sup_error`, and then retains the new support as `sup_old`. -/
noncomputable def cdi_step (ctx : StepCtx dims) (s : LoopState dims) (n : ℕ) : LoopState dims :=
  let obj_old := s.sample_obj
  let gamma_1 : ℚ := -1 / ctx.beta
  let gamma_2 : ℚ := 1 / ctx.beta
  let obj_a_mod := pi_modulus dims s.sample_obj ctx.diffracted_pattern offset_default
  let obj_a_mode : Idx dims → ℂ :=
    if strLower ctx.pi_modulus_flag = "real" then
      fun j => ((Complex.abs (obj_a_mod j) : ℝ) : ℂ)
    else obj_a_mod
  let obj_a_mix : Idx dims → ℂ :=
    fun j => (1 + (gamma_2 : ℂ)) * obj_a_mode j - (gamma_2 : ℂ) * s.sample_obj j
  let obj_a := pi_support dims obj_a_mix s.sup_out_index
  let obj_b_sup := pi_support dims s.sample_obj s.sup_out_index
  let obj_b_mix : Idx dims → ℂ :=
    fun j => (1 + (gamma_1 : ℂ)) * obj_b_sup j - (gamma_1 : ℂ) * s.sample_obj j
  let obj_b_mod := pi_modulus dims obj_b_mix ctx.diffracted_pattern offset_default
  let obj_b : Idx dims → ℂ :=
    if strLower ctx.pi_modulus_flag = "real" then
      fun j => ((Complex.abs (obj_b_mod j) : ℝ) : ℂ)
    else obj_b_mod
  let new_obj : Idx dims → ℂ :=
    fun j => s.sample_obj j + (ctx.beta : ℂ) * (obj_a j - obj_b j)
  let fires := sw_fires dims ctx n
  let new_sup : Idx dims → ℝ :=
    find_support dims ctx.gaussian_filter new_obj ctx.sw_sigma ctx.sw_threshold
  let contrib := avg_contrib dims ctx n
  { sample_obj := new_obj
    sup_out_index := if fires then (fun j => decide (new_sup j < 1)) else s.sup_out_index
    sup_old := if fires then new_sup else s.sup_old
    obj_avg := if contrib then (fun j => s.obj_avg j + new_obj j) else s.obj_avg
    avg_i := if contrib then s.avg_i + 1 else s.avg_i
    obj_error := Function.update s.obj_error n (cal_relative_error dims obj_old new_obj)
    diff_error := Function.update s.diff_error n (cal_diff_error dims new_obj ctx.diffracted_pattern)
    sup_error := if fires then Function.update s.sup_error n (∑ j, s.sup_old j) else s.sup_error }

/-- The loop state just before iteration 0 (cdi.py lines 356-366):
`sup_out_index = sup < 1`, zero-filled error histories, zero `sup_old`
snapshot, zero averaging accumulator and count. -/
noncomputable def cdiInit (caller : CallerArrays dims) : LoopState dims :=
  { sample_obj := caller.obj
    sup_out_index := fun j => decide (caller.sup j < 1)
    sup_old := fun _ => 0
    obj_avg := fun _ => 0
    avg_i := 0
    obj_error := fun _ => some 0
    diff_error := fun _ => some 0
    sup_error := fun _ => 0 }

/-- State after the first `k` iterations of the loop. -/
noncomputable def runState (ctx : StepCtx dims) (s0 : LoopState dims) (k : ℕ) : LoopState dims :=
  (List.range k).foldl (cdi_step dims ctx) s0

/-- The values returned by `cdi_recon`: the averaged object (`none` when the
contribution count is zero and `obj_avg / avg_i` is a non-finite array) and
the `error_dict` entries. -/
structure ReconOutput (dims : Fin D → ℕ) where
  obj_avg : Option (Idx dims → ℂ)
  obj_error : ℕ → Option ℝ
  diff_error : ℕ → Option ℝ
  sup_error : ℕ → ℝ

/-- Packaging of the reconstruction configuration into a `StepCtx`. -/
def mkCtx (gaussian_filter : (Idx dims → ℝ) → ℝ → Idx dims → ℝ)
    (diffracted_pattern : Idx dims → ℝ) (beta start_avg : ℚ) (pi_modulus_flag : String)
    (sw_flag : Bool) (sw_sigma sw_threshold : ℝ) (sw_start sw_end : ℚ)
    (sw_step : ℕ) (n_iterations : ℤ) : StepCtx dims :=
  { gaussian_filter := gaussian_filter
    diffracted_pattern := diffracted_pattern
    beta := beta
    start_avg := start_avg
    pi_modulus_flag := pi_modulus_flag
    sw_flag := sw_flag
    sw_sigma := sw_sigma
    sw_threshold := sw_threshold
    sw_start := sw_start
    sw_end := sw_end
    sw_step := sw_step
    n_iterations := n_iterations }

/-- `cdi_recon` (cdi.py lines 292-419).  Besides the returned
`(obj_avg, error_dict)` pair the embedding returns the post-call contents of
the three caller arrays:
* the caller's pattern buffer is copied at line 351 and only the copy is read
  afterwards, so the buffer is returned unchanged;
* the local name `sup` is only ever rebound to freshly allocated masks
  (line 396), so the caller's support buffer is returned unchanged;
* `sample_obj += ...` (line 386) is an in-place numpy update through the
  caller's object buffer, so that buffer holds the final loop object.
The only statements that can raise on shape-consistent inputs are
`gamma_1 = -1/beta` (line 353, ZeroDivisionError when `beta == 0`) and
`np.zeros(n_iterations)` (line 360, ValueError when the count is negative);
no other validation of any argument is performed.  (`gaussian_filter` is
external scipy code, modelled as a total function; with a non-positive
sigma the real filter can itself fail, but only mid-loop when shrinkwrap
first fires.) -/
noncomputable def cdi_recon (gaussian_filter : (Idx dims → ℝ) → ℝ → Idx dims → ℝ)
    (caller : CallerArrays dims) (beta start_avg : ℚ) (pi_modulus_flag : String)
    (sw_flag : Bool) (sw_sigma sw_threshold : ℝ) (sw_start sw_end : ℚ)
    (sw_step : ℕ) (n_iterations : ℤ) :
    Except String (ReconOutput dims × CallerArrays dims) :=
  if beta = 0 then Except.error "float division by zero"
  else if n_iterations < 0 then Except.error "negative dimensions are not allowed"
  else
    let ctx : StepCtx dims :=
      mkCtx dims gaussian_filter caller.pattern beta start_avg pi_modulus_flag
        sw_flag sw_sigma sw_threshold sw_start sw_end sw_step n_iterations
    let sF := runState dims ctx (cdiInit dims caller) n_iterations.toNat
    Except.ok
      ({ obj_avg :=
           if sF.avg_i = 0 then none
           else some fun j => sF.obj_avg j / (sF.avg_i : ℂ)
         obj_error := sF.obj_error
         diff_error := sF.diff_error
         sup_error := sF.sup_error },
       { pattern := caller.pattern
         obj := sF.sample_obj
         sup := caller.sup })

end DriverDefs

/-- Concrete 2×2 shape used by the witness instantiations. -/
def dimsW : Fin 2 → ℕ := fun _ => 2

instance (a : Fin 2) : NeZero (dimsW a) := ⟨by norm_num [dimsW]⟩

/-- Concrete stand-in for the external Gaussian filter in witnesses. -/
def gfW : (Idx dimsW → ℝ) → ℝ → Idx dimsW → ℝ := fun s _ => s

/-- Concrete caller arrays used by the witness instantiations. -/
noncomputable def callerW : CallerArrays dimsW :=
  { pattern := fun _ => 1
    obj := fun _ => 1
    sup := fun _ => 1 }

/-- Concrete loop context used by the witness instantiations
(shrinkwrap enabled, `sw_step = 10`, 100 iterations). -/
noncomputable def ctxW : StepCtx dimsW :=
  mkCtx dimsW gfW callerW.pattern (115/100) (8/10) "Complex" true 1 (1/10)
    (2/10) (8/10) 10 100

lemma expUnit_ne_zero (n : ℕ) : expUnit n ≠ 0 := Complex.exp_ne_zero _

lemma expUnit_isPrimitiveRoot (n : ℕ) [NeZero n] : IsPrimitiveRoot (expUnit n) n :=
  Complex.isPrimitiveRoot_exp n (NeZero.ne n)

/-- Reindex a sum over `ZMod n` as a sum over `Finset.range n` via `ZMod.val`. -/
lemma sum_zmod_val {M : Type*} [AddCommMonoid M] (n : ℕ) [NeZero n] (f : ℕ → M) :
    ∑ m : ZMod n, f m.val = ∑ i ∈ Finset.range n, f i := by
  refine Finset.sum_bij' (fun m _ => m.val) (fun i _ => (i : ZMod n))
    (fun m _ => Finset.mem_range.mpr (ZMod.val_lt m)) (fun i _ => Finset.mem_univ _)
    (fun m _ => ZMod.natCast_rightInverse m)
    (fun i hi => ZMod.val_cast_of_lt (Finset.mem_range.mp hi)) (fun m _ => rfl)

/-- Orthogonality of the discrete Fourier characters on `ZMod n`. -/
lemma expUnit_orth (n : ℕ) [NeZero n] (t s : ZMod n) :
    ∑ m : ZMod n, expUnit n ^ (((t.val : ℤ) - (s.val : ℤ)) * (m.val : ℤ)) =
      if t = s then (n : ℂ) else 0 := by
  have hne := expUnit_ne_zero n
  have hterm : ∀ m : ZMod n,
      expUnit n ^ (((t.val : ℤ) - (s.val : ℤ)) * (m.val : ℤ)) =
        (expUnit n ^ ((t.val : ℤ) - (s.val : ℤ))) ^ m.val := by
    intro m
    rw [zpow_mul, zpow_natCast]
  rw [Finset.sum_congr rfl fun m _ => hterm m]
  rw [sum_zmod_val n (fun i => (expUnit n ^ ((t.val : ℤ) - (s.val : ℤ))) ^ i)]
  by_cases h : t = s
  · subst h
    simp
  · rw [if_neg h]
    set u : ℂ := expUnit n ^ ((t.val : ℤ) - (s.val : ℤ)) with hu
    have hu1 : u ≠ 1 := by
      intro hcontra
      have hdvd : (n : ℤ) ∣ ((t.val : ℤ) - (s.val : ℤ)) :=
        ((expUnit_isPrimitiveRoot n).zpow_eq_one_iff_dvd _).mp hcontra
      have ht := ZMod.val_lt t
      have hs := ZMod.val_lt s
      have habs : |(t.val : ℤ) - (s.val : ℤ)| < n := by
        rw [abs_sub_lt_iff]
        omega
      have hzero : (t.val : ℤ) - (s.val : ℤ) = 0 := Int.eq_zero_of_abs_lt_dvd hdvd habs
      exact h (ZMod.val_injective n (by omega))
    have hun : u ^ n = 1 := by
      rw [hu, ← zpow_natCast, ← zpow_mul, mul_comm, zpow_mul, zpow_natCast,
        IsPrimitiveRoot.pow_eq_one (expUnit_isPrimitiveRoot n), one_zpow]
    rw [geom_sum_eq hu1 n, hun]
    simp

section FourierLemmas

variable (dims : Fin D → ℕ) [∀ a, NeZero (dims a)]

lemma fftshift_ifftshift (x : Idx dims → ℂ) : fftshift dims (ifftshift dims x) = x := by
  funext i
  show x (fun a => i a - centerIdx dims a + centerIdx dims a) = x i
  exact congrArg x (funext fun a => sub_add_cancel _ _)

lemma ifftshift_fftshift (x : Idx dims → ℂ) : ifftshift dims (fftshift dims x) = x := by
  funext i
  show x (fun a => i a + centerIdx dims a - centerIdx dims a) = x i
  exact congrArg x (funext fun a => add_sub_cancel_right _ _)

lemma npsize_ne_zero : (npsize dims : ℂ) ≠ 0 := by
  rw [npsize, Nat.cast_prod]
  refine Finset.prod_ne_zero_iff.mpr fun a _ => ?_
  exact_mod_cast NeZero.ne (dims a)

/-- The unnormalised forward and 1/size-normalised inverse DFT compose to the
identity. -/
lemma ifftn_fftn (x : Idx dims → ℂ) : ifftn dims (fftn dims x) = x := by
  funext j
  show (∑ k, fftn dims x k * ∏ a, expUnit (dims a) ^ (((j a).val : ℤ) * ((k a).val : ℤ))) /
      (npsize dims : ℂ) = x j
  have step1 : ∀ k : Idx dims,
      fftn dims x k * ∏ a, expUnit (dims a) ^ (((j a).val : ℤ) * ((k a).val : ℤ)) =
        ∑ i, x i * ∏ a, expUnit (dims a) ^ ((((j a).val : ℤ) - ((i a).val : ℤ)) * ((k a).val : ℤ)) := by
    intro k
    show (∑ i, x i * ∏ a, expUnit (dims a) ^ (-(((i a).val : ℤ) * ((k a).val : ℤ)))) *
        ∏ a, expUnit (dims a) ^ (((j a).val : ℤ) * ((k a).val : ℤ)) = _
    rw [Finset.sum_mul]
    refine Finset.sum_congr rfl fun i _ => ?_
    rw [mul_assoc, ← Finset.prod_mul_distrib]
    congr 1
    refine Finset.prod_congr rfl fun a _ => ?_
    rw [← zpow_add₀ (expUnit_ne_zero (dims a))]
    congr 1
    ring
  have step2 : ∀ i : Idx dims,
      (∑ k : Idx dims, x i *
          ∏ a, expUnit (dims a) ^ ((((j a).val : ℤ) - ((i a).val : ℤ)) * ((k a).val : ℤ))) =
        x i * if j = i then (npsize dims : ℂ) else 0 := by
    intro i
    rw [← Finset.mul_sum]
    congr 1
    rw [← Fintype.prod_sum fun a (m : ZMod (dims a)) =>
      expUnit (dims a) ^ ((((j a).val : ℤ) - ((i a).val : ℤ)) * ((m.val : ℕ) : ℤ))]
    rw [Finset.prod_congr rfl fun a _ => expUnit_orth (dims a) (j a) (i a)]
    by_cases h : j = i
    · subst h
      rw [if_pos rfl, Finset.prod_congr rfl fun a _ => if_pos rfl, npsize, Nat.cast_prod]
    · rw [if_neg h]
      obtain ⟨a, ha⟩ : ∃ a, j a ≠ i a := by
        by_contra hall
        push_neg at hall
        exact h (funext hall)
      exact Finset.prod_eq_zero (Finset.mem_univ a) (if_neg ha)
  simp only [step1]
  rw [Finset.sum_comm]
  simp only [step2, mul_ite, mul_zero]
  rw [Finset.sum_ite_eq Finset.univ j fun i => x i * (npsize dims : ℂ)]
  rw [if_pos (Finset.mem_univ j)]
  exact mul_div_cancel_right₀ (x j) (npsize_ne_zero dims)

end FourierLemmas

section ClaimTheoremsA

variable (dims : Fin D → ℕ) [∀ a, NeZero (dims a)]

/-- C5: for every complex array `x` of any shape (2-D and 3-D in
particular), the centred inverse Fourier transform of the centred forward
Fourier transform of `x` reproduces `x` exactly:
`_ifft_helper(_fft_helper(x)) == x`. -/
theorem fourier_round_trip (x : Idx dims → ℂ) :
    ifft_helper dims (fft_helper dims x) = x := by
  unfold ifft_helper fft_helper
  rw [fftshift_ifftshift, ifftn_fftn, ifftshift_fftshift]

/-- C5 witness: the round trip at the concrete 2×2 shape and the constant
array 1 (the implicit `NeZero` shape hypotheses are discharged by the
`dimsW` instances). -/
theorem fourier_round_trip_witness :
    ifft_helper dimsW (fft_helper dimsW (fun _ => 1)) = fun _ => 1 :=
  fourier_round_trip dimsW fun _ => 1

/-- C7: the support projection returns a copy of its input in which every
entry at an outside-support index is exactly zero and every other entry is
the input entry unchanged (the source copies with `np.array` and never
mutates its argument), and applying it twice with the same index array
equals applying it once. -/
theorem pi_support_spec (sample_obj : Idx dims → ℂ) (index_v : Idx dims → Bool) :
    (∀ j, pi_support dims sample_obj index_v j = if index_v j then 0 else sample_obj j) ∧
      pi_support dims (pi_support dims sample_obj index_v) index_v =
        pi_support dims sample_obj index_v := by
  refine ⟨fun j => rfl, ?_⟩
  funext j
  by_cases h : index_v j
  · simp [pi_support, h]
  · simp [pi_support, h]

/-- C7 witness: the support projection characterisation at a concrete 2×2
array and index (the implicit shape hypotheses are discharged by the
`dimsW` instances). -/
theorem pi_support_spec_witness :
    pi_support dimsW (fun _ => 1) (fun _ => false) (fun _ => 0) =
      (if (fun _ : Idx dimsW => false) (fun _ => 0) then 0
        else (fun _ : Idx dimsW => (1:ℂ)) (fun _ => 0)) ∧
      pi_support dimsW (pi_support dimsW (fun _ => 1) (fun _ => false)) (fun _ => false) =
        pi_support dimsW (fun _ => 1) (fun _ => false) :=
  ⟨(pi_support_spec dimsW (fun _ => 1) (fun _ => false)).1 (fun _ => 0),
    (pi_support_spec dimsW (fun _ => 1) (fun _ => false)).2⟩

/-- C4: for a non-negative measured pattern, `pi_modulus` is the composition
claimed by the spec: forward transform scaled by `1/sqrt(size)`; at every
Fourier index with strictly positive pattern the value `v` is replaced by
`pattern * v / (|v| + offset)` while indices with zero pattern keep their
value unmodified; then the inverse transform rescaled by `sqrt(size)`
(shape preservation is enforced by the index type). -/
theorem pi_modulus_spec (obj : Idx dims → ℂ) (pattern : Idx dims → ℝ)
    (offset_v : ℝ) (hpat : ∀ k, 0 ≤ pattern k) :
    pi_modulus dims obj pattern offset_v = fun j =>
      ifft_helper dims (fun k =>
        if pattern k = 0 then fft_helper dims obj k / (Real.sqrt (npsize dims) : ℂ)
        else (pattern k : ℂ) * (fft_helper dims obj k / (Real.sqrt (npsize dims) : ℂ)) /
          ((Complex.abs (fft_helper dims obj k / (Real.sqrt (npsize dims) : ℂ)) : ℝ)
            + offset_v : ℝ)) j * (Real.sqrt (npsize dims) : ℂ) := by
  have harr : (fun k =>
      if 0 < pattern k then
        (pattern k : ℂ) * (fft_helper dims obj k / (Real.sqrt (npsize dims) : ℂ)) /
          ((Complex.abs (fft_helper dims obj k / (Real.sqrt (npsize dims) : ℂ)) : ℝ)
            + offset_v : ℝ)
      else fft_helper dims obj k / (Real.sqrt (npsize dims) : ℂ)) = (fun k =>
      if pattern k = 0 then fft_helper dims obj k / (Real.sqrt (npsize dims) : ℂ)
      else (pattern k : ℂ) * (fft_helper dims obj k / (Real.sqrt (npsize dims) : ℂ)) /
        ((Complex.abs (fft_helper dims obj k / (Real.sqrt (npsize dims) : ℂ)) : ℝ)
          + offset_v : ℝ)) := by
    funext k
    by_cases hk : pattern k = 0
    · rw [if_neg (by rw [hk]; exact lt_irrefl 0), if_pos hk]
    · rw [if_pos (lt_of_le_of_ne (hpat k) (Ne.symm hk)), if_neg hk]
  show (fun j =>
      ifft_helper dims (fun k =>
        if 0 < pattern k then
          (pattern k : ℂ) * (fft_helper dims obj k / (Real.sqrt (npsize dims) : ℂ)) /
            ((Complex.abs (fft_helper dims obj k / (Real.sqrt (npsize dims) : ℂ)) : ℝ)
              + offset_v : ℝ)
        else fft_helper dims obj k / (Real.sqrt (npsize dims) : ℂ)) j *
        (Real.sqrt (npsize dims) : ℂ)) = _
  rw [harr]

/-- C4 witness: the characterisation applied at the 2×2 shape with the
constant pattern 1 (non-negativity discharged pointwise). -/
theorem pi_modulus_spec_witness :
    pi_modulus dimsW (fun _ => 1) (fun _ => 1) offset_default = fun j =>
      ifft_helper dimsW (fun k =>
        if (1 : ℝ) = 0 then fft_helper dimsW (fun _ => 1) k / (Real.sqrt (npsize dimsW) : ℂ)
        else ((1 : ℝ) : ℂ) * (fft_helper dimsW (fun _ => 1) k / (Real.sqrt (npsize dimsW) : ℂ)) /
          ((Complex.abs (fft_helper dimsW (fun _ => 1) k / (Real.sqrt (npsize dimsW) : ℂ)) : ℝ)
            + offset_default : ℝ)) j * (Real.sqrt (npsize dimsW) : ℂ) :=
  pi_modulus_spec dimsW (fun _ => 1) (fun _ => 1) offset_default fun _ => zero_le_one

end ClaimTheoremsA

section DriverLemmas

variable (dims : Fin D → ℕ) [∀ a, NeZero (dims a)]

lemma runState_succ (ctx : StepCtx dims) (s0 : LoopState dims) (k : ℕ) :
    runState dims ctx s0 (k + 1) = cdi_step dims ctx (runState dims ctx s0 k) k := by
  unfold runState
  rw [List.range_succ, List.foldl_append]
  rfl

lemma cdi_step_sup_error_ne (ctx : StepCtx dims) (s : LoopState dims) (m n : ℕ)
    (h : m ≠ n) : (cdi_step dims ctx s m).sup_error n = s.sup_error n := by
  show (if sw_fires dims ctx m then Function.update s.sup_error m (∑ j, s.sup_old j)
      else s.sup_error) n = s.sup_error n
  by_cases hf : sw_fires dims ctx m
  · rw [if_pos hf, Function.update_noteq (Ne.symm h)]
  · rw [if_neg hf]

lemma cdi_step_not_fires (ctx : StepCtx dims) (s : LoopState dims) (n : ℕ)
    (h : sw_fires dims ctx n = false) :
    (cdi_step dims ctx s n).sup_old = s.sup_old ∧
      (cdi_step dims ctx s n).sup_out_index = s.sup_out_index ∧
      (cdi_step dims ctx s n).sup_error = s.sup_error := by
  refine ⟨?_, ?_, ?_⟩ <;> simp [cdi_step, h]

lemma cdi_step_fires (ctx : StepCtx dims) (s : LoopState dims) (n : ℕ)
    (h : sw_fires dims ctx n = true) :
    (cdi_step dims ctx s n).sup_error =
        Function.update s.sup_error n (∑ j, s.sup_old j) ∧
      (cdi_step dims ctx s n).sup_old =
        find_support dims ctx.gaussian_filter (cdi_step dims ctx s n).sample_obj
          ctx.sw_sigma ctx.sw_threshold ∧
      (cdi_step dims ctx s n).sup_out_index =
        fun j => decide ((cdi_step dims ctx s n).sup_old j < 1) := by
  refine ⟨?_, ?_, ?_⟩ <;> simp [cdi_step, h]

lemma runState_sup_error_stable (ctx : StepCtx dims) (s0 : LoopState dims) (n : ℕ) :
    ∀ k, k ≤ n → (runState dims ctx s0 k).sup_error n = s0.sup_error n := by
  intro k
  induction k with
  | zero => intro _; rfl
  | succ k ih =>
      intro h
      rw [runState_succ, cdi_step_sup_error_ne dims ctx _ k n (by omega), ih (by omega)]

lemma runState_sup_error_late (ctx : StepCtx dims) (s0 : LoopState dims) (n : ℕ) :
    ∀ k, n < k →
      (runState dims ctx s0 k).sup_error n = (runState dims ctx s0 (n + 1)).sup_error n := by
  intro k
  induction k with
  | zero => intro h; exact absurd h (Nat.not_lt_zero n)
  | succ k ih =>
      intro h
      by_cases h1 : n = k
      · subst h1
        rfl
      · rw [runState_succ, cdi_step_sup_error_ne dims ctx _ k n (by omega), ih (by omega)]

lemma runState_sup_old_const (ctx : StepCtx dims) (s0 : LoopState dims) :
    ∀ k, (∀ m, m < k → sw_fires dims ctx m = false) →
      (runState dims ctx s0 k).sup_old = s0.sup_old := by
  intro k
  induction k with
  | zero => intro _; rfl
  | succ k ih =>
      intro h
      rw [runState_succ, (cdi_step_not_fires dims ctx _ k (h k (by omega))).1,
        ih fun m hm => h m (by omega)]

end DriverLemmas

section ClaimTheoremsB

variable (dims : Fin D → ℕ) [∀ a, NeZero (dims a)]

/-- C1: every iteration of the driver updates the object by the
difference-map rule with `gamma_1 = -1/beta` and `gamma_2 = 1/beta`:
`obj_a` is the modulus projection of the current object (magnitude taken in
real mode), mixed as `(1+gamma_2)*obj_a - gamma_2*object`, then
support-projected; `obj_b` is the support projection of the current object,
mixed as `(1+gamma_1)*obj_b - gamma_1*object`, then modulus-projected (same
real-mode rule); the object becomes `object + beta*(obj_a - obj_b)`. -/
theorem cdi_step_difference_map (ctx : StepCtx dims) (s : LoopState dims) (n : ℕ) :
    (cdi_step dims ctx s n).sample_obj = fun j =>
      s.sample_obj j + (ctx.beta : ℂ) *
        ((pi_support dims
            (fun i =>
              (1 + ((1 / ctx.beta : ℚ) : ℂ)) *
                  (if strLower ctx.pi_modulus_flag = "real" then
                    fun i2 => ((Complex.abs
                      (pi_modulus dims s.sample_obj ctx.diffracted_pattern
                        offset_default i2) : ℝ) : ℂ)
                  else
                    pi_modulus dims s.sample_obj ctx.diffracted_pattern offset_default) i -
                ((1 / ctx.beta : ℚ) : ℂ) * s.sample_obj i)
            s.sup_out_index) j -
          (if strLower ctx.pi_modulus_flag = "real" then
            fun i2 => ((Complex.abs (pi_modulus dims
              (fun i => (1 + ((-1 / ctx.beta : ℚ) : ℂ)) *
                  pi_support dims s.sample_obj s.sup_out_index i -
                ((-1 / ctx.beta : ℚ) : ℂ) * s.sample_obj i)
              ctx.diffracted_pattern offset_default i2) : ℝ) : ℂ)
          else
            pi_modulus dims
              (fun i => (1 + ((-1 / ctx.beta : ℚ) : ℂ)) *
                  pi_support dims s.sample_obj s.sup_out_index i -
                ((-1 / ctx.beta : ℚ) : ℂ) * s.sample_obj i)
              ctx.diffracted_pattern offset_default) j) := rfl

/-- C1 witness: the difference-map update equation applied at the concrete
context `ctxW`, the initial state, and iteration 0 (the implicit shape
hypotheses are discharged by the `dimsW` instances). -/
theorem cdi_step_difference_map_witness :
    (cdi_step dimsW ctxW (cdiInit dimsW callerW) 0).sample_obj = fun j =>
      (cdiInit dimsW callerW).sample_obj j + (ctxW.beta : ℂ) *
        ((pi_support dimsW
            (fun i =>
              (1 + ((1 / ctxW.beta : ℚ) : ℂ)) *
                  (if strLower ctxW.pi_modulus_flag = "real" then
                    fun i2 => ((Complex.abs
                      (pi_modulus dimsW (cdiInit dimsW callerW).sample_obj
                        ctxW.diffracted_pattern offset_default i2) : ℝ) : ℂ)
                  else
                    pi_modulus dimsW (cdiInit dimsW callerW).sample_obj
                      ctxW.diffracted_pattern offset_default) i -
                ((1 / ctxW.beta : ℚ) : ℂ) * (cdiInit dimsW callerW).sample_obj i)
            (cdiInit dimsW callerW).sup_out_index) j -
          (if strLower ctxW.pi_modulus_flag = "real" then
            fun i2 => ((Complex.abs (pi_modulus dimsW
              (fun i => (1 + ((-1 / ctxW.beta : ℚ) : ℂ)) *
                  pi_support dimsW (cdiInit dimsW callerW).sample_obj
                    (cdiInit dimsW callerW).sup_out_index i -
                ((-1 / ctxW.beta : ℚ) : ℂ) * (cdiInit dimsW callerW).sample_obj i)
              ctxW.diffracted_pattern offset_default i2) : ℝ) : ℂ)
          else
            pi_modulus dimsW
              (fun i => (1 + ((-1 / ctxW.beta : ℚ) : ℂ)) *
                  pi_support dimsW (cdiInit dimsW callerW).sample_obj
                    (cdiInit dimsW callerW).sup_out_index i -
                ((-1 / ctxW.beta : ℚ) : ℂ) * (cdiInit dimsW callerW).sample_obj i)
              ctxW.diffracted_pattern offset_default) j) :=
  cdi_step_difference_map dimsW ctxW (cdiInit dimsW callerW) 0

/-- C3: the shrinkwrap schedule.  With shrinkwrap enabled and a positive
step: (1) the trigger holds exactly on the inclusive window
`[sw_start*n_iterations, sw_end*n_iterations]` at multiples of `sw_step`;
(2) at non-firing iterations the support snapshot, the outside-support
index and the whole support-error history are unchanged; (3) at a firing
iteration the slot `n` receives the total "on" count of the PREVIOUS
snapshot (one-step-stale), the snapshot becomes the freshly computed
support of the just-updated object, and the outside-support index is
regenerated from it; (4) in a full run a non-firing iteration leaves its
slot at the zero default; (5) in a full run a firing iteration records the
"on" count of the snapshot held before that iteration; (6) in particular
the first firing records zero. -/
theorem cdi_shrinkwrap_schedule (ctx : StepCtx dims) (caller : CallerArrays dims)
    (hsw : ctx.sw_flag = true) (hstep : 0 < ctx.sw_step) :
    (∀ n : ℕ, sw_fires dims ctx n = true ↔
      (ctx.sw_start * (ctx.n_iterations : ℚ) ≤ (n : ℚ) ∧
        (n : ℚ) ≤ ctx.sw_end * (ctx.n_iterations : ℚ) ∧ n % ctx.sw_step = 0)) ∧
    (∀ (s : LoopState dims) (n : ℕ), sw_fires dims ctx n = false →
      (cdi_step dims ctx s n).sup_old = s.sup_old ∧
      (cdi_step dims ctx s n).sup_out_index = s.sup_out_index ∧
      (cdi_step dims ctx s n).sup_error = s.sup_error) ∧
    (∀ (s : LoopState dims) (n : ℕ), sw_fires dims ctx n = true →
      (cdi_step dims ctx s n).sup_error =
        Function.update s.sup_error n (∑ j, s.sup_old j) ∧
      (cdi_step dims ctx s n).sup_old =
        find_support dims ctx.gaussian_filter (cdi_step dims ctx s n).sample_obj
          ctx.sw_sigma ctx.sw_threshold ∧
      (cdi_step dims ctx s n).sup_out_index =
        fun j => decide ((cdi_step dims ctx s n).sup_old j < 1)) ∧
    (∀ n k : ℕ, sw_fires dims ctx n = false →
      (runState dims ctx (cdiInit dims caller) k).sup_error n = 0) ∧
    (∀ n k : ℕ, n < k → sw_fires dims ctx n = true →
      (runState dims ctx (cdiInit dims caller) k).sup_error n =
        ∑ j, (runState dims ctx (cdiInit dims caller) n).sup_old j) ∧
    (∀ n k : ℕ, n < k → sw_fires dims ctx n = true →
      (∀ m, m < n → sw_fires dims ctx m = false) →
      (runState dims ctx (cdiInit dims caller) k).sup_error n = 0) := by
  have hstep0 : ctx.sw_step ≠ 0 := Nat.pos_iff_ne_zero.mp hstep
  have hstale : ∀ n k : ℕ, n < k → sw_fires dims ctx n = true →
      (runState dims ctx (cdiInit dims caller) k).sup_error n =
        ∑ j, (runState dims ctx (cdiInit dims caller) n).sup_old j := by
    intro n k hnk hf
    rw [runState_sup_error_late dims ctx _ n k hnk, runState_succ,
      (cdi_step_fires dims ctx _ n hf).1, Function.update_same]
  refine ⟨?_, ?_, ?_, ?_, hstale, ?_⟩
  · intro n
    simp only [sw_fires, hsw, npmod, if_neg hstep0, Bool.true_and, Bool.and_eq_true,
      decide_eq_true_eq]
    tauto
  · intro s n h
    exact cdi_step_not_fires dims ctx s n h
  · intro s n h
    exact cdi_step_fires dims ctx s n h
  · intro n k h
    rcases le_or_lt k n with hk | hk
    · rw [runState_sup_error_stable dims ctx _ n k hk]
      rfl
    · rw [runState_sup_error_late dims ctx _ n k hk, runState_succ,
        congrFun (cdi_step_not_fires dims ctx _ n h).2.2 n,
        runState_sup_error_stable dims ctx _ n n le_rfl]
      rfl
  · intro n k hnk hf hnone
    rw [hstale n k hnk hf, runState_sup_old_const dims ctx _ n hnone]
    show ∑ _j : Idx dims, (0 : ℝ) = 0
    exact Finset.sum_const_zero

/-- C3 witness: at the concrete context `ctxW` (window [0.2,0.8] of 100
iterations, step 10, shrinkwrap enabled) the schedule theorem applies and
yields, e.g., that iteration 20 fires. -/
theorem cdi_shrinkwrap_schedule_witness :
    (ctxW.sw_flag = true ∧ 0 < ctxW.sw_step) ∧ sw_fires dimsW ctxW 20 = true := by
  refine ⟨⟨rfl, by norm_num [ctxW, mkCtx]⟩, ?_⟩
  exact ((cdi_shrinkwrap_schedule dimsW ctxW callerW rfl
    (by norm_num [ctxW, mkCtx])).1 20).mpr (by norm_num [ctxW, mkCtx])

end ClaimTheoremsB

section DriverLemmasB

variable (dims : Fin D → ℕ) [∀ a, NeZero (dims a)]

lemma runState_avg_i_const (ctx : StepCtx dims) (s0 : LoopState dims) :
    ∀ k, (∀ m, m < k → avg_contrib dims ctx m = false) →
      (runState dims ctx s0 k).avg_i = s0.avg_i := by
  intro k
  induction k with
  | zero => intro _; rfl
  | succ k ih =>
      intro h
      rw [runState_succ]
      show (if avg_contrib dims ctx k = true then (runState dims ctx s0 k).avg_i + 1
          else (runState dims ctx s0 k).avg_i) = s0.avg_i
      rw [h k (by omega), if_neg (by simp), ih fun m hm => h m (by omega)]

end DriverLemmasB

section ClaimTheoremsC

variable (dims : Fin D → ℕ) [∀ a, NeZero (dims a)]

/-- C6: the shrinkwrap support estimator returns a freshly allocated mask
(the source writes into `np.zeros_like`, never into its argument) of the
same shape whose value is 1 exactly where the Gaussian-smoothed magnitude
is at least `threshold * max` of the smoothed field — inclusive comparison —
and 0 otherwise. -/
theorem find_support_spec (gf : (Idx dims → ℝ) → ℝ → Idx dims → ℝ)
    (sample_obj : Idx dims → ℂ) (sw_sigma sw_threshold : ℝ)
    (hsigma : 0 < sw_sigma) (ht0 : 0 < sw_threshold) (ht1 : sw_threshold ≤ 1) :
    ∀ j,
      (find_support dims gf sample_obj sw_sigma sw_threshold j = 1 ↔
        sw_threshold * Finset.univ.sup' Finset.univ_nonempty
            (gf (fun i => Complex.abs (sample_obj i)) sw_sigma) ≤
          gf (fun i => Complex.abs (sample_obj i)) sw_sigma j) ∧
      (find_support dims gf sample_obj sw_sigma sw_threshold j = 0 ↔
        ¬ sw_threshold * Finset.univ.sup' Finset.univ_nonempty
            (gf (fun i => Complex.abs (sample_obj i)) sw_sigma) ≤
          gf (fun i => Complex.abs (sample_obj i)) sw_sigma j) := by
  intro j
  show ((if sw_threshold * Finset.univ.sup' Finset.univ_nonempty
        (gf (fun i => Complex.abs (sample_obj i)) sw_sigma) ≤
      gf (fun i => Complex.abs (sample_obj i)) sw_sigma j then (1:ℝ) else 0) = 1 ↔ _) ∧
    ((if sw_threshold * Finset.univ.sup' Finset.univ_nonempty
        (gf (fun i => Complex.abs (sample_obj i)) sw_sigma) ≤
      gf (fun i => Complex.abs (sample_obj i)) sw_sigma j then (1:ℝ) else 0) = 0 ↔ _)
  by_cases h : sw_threshold * Finset.univ.sup' Finset.univ_nonempty
      (gf (fun i => Complex.abs (sample_obj i)) sw_sigma) ≤
    gf (fun i => Complex.abs (sample_obj i)) sw_sigma j
  · rw [if_pos h]
    refine ⟨⟨fun _ => h, fun _ => rfl⟩, ⟨fun h2 => absurd h2 one_ne_zero, fun h2 => absurd h h2⟩⟩
  · rw [if_neg h]
    refine ⟨⟨fun h2 => absurd h2.symm one_ne_zero, fun h2 => absurd h2 h⟩,
      ⟨fun _ => h, fun _ => rfl⟩⟩

/-- C6 witness: the estimator characterisation at the 2×2 shape with the
identity filter, sigma 1 and threshold 1 (all three hypotheses discharged). -/
theorem find_support_spec_witness :
    ((0:ℝ) < 1 ∧ (0:ℝ) < 1 ∧ (1:ℝ) ≤ 1) ∧
      (find_support dimsW gfW (fun _ => 1) 1 1 (fun _ => 0) = 1 ↔
        (1:ℝ) * Finset.univ.sup' Finset.univ_nonempty
            (gfW (fun i => Complex.abs ((fun _ => (1:ℂ)) i)) 1) ≤
          gfW (fun i => Complex.abs ((fun _ => (1:ℂ)) i)) 1 (fun _ => 0)) :=
  ⟨⟨one_pos, one_pos, le_refl 1⟩,
    ((find_support_spec dimsW gfW (fun _ => 1) 1 1 one_pos one_pos (le_refl 1))
      (fun _ => 0)).1⟩

/-- C2 counterexample: with `sw_start = 9/10 > sw_end = 1/10` — an invalid
configuration in the claim's sense — and two iterations, the call does not
fail at entry or anywhere else: it returns `Except.ok` after running the
loop (the source contains no validation code; an inverted shrinkwrap
window merely never fires). -/
theorem cdi_recon_no_validation :
    ((9 : ℚ) / 10 > (1 : ℚ) / 10) ∧
      ∃ r, cdi_recon dimsW gfW callerW (115/100) (8/10) "Complex" true 1 (1/10)
          (9/10) (1/10) 10 2 = Except.ok r := by
  refine ⟨by norm_num, ?_⟩
  unfold cdi_recon
  rw [if_neg (by norm_num : ¬ ((115:ℚ)/100 = 0)), if_neg (by norm_num : ¬ ((2:ℤ) < 0))]
  exact ⟨_, rfl⟩

/-- C2 amended claim: the entry point performs no validation of its
configuration; for every configuration with non-zero `beta` and
non-negative iteration count — including non-positive sigma, zero
iterations, `start_avg ≥ 1` and `sw_start > sw_end` — the call returns
`Except.ok`.  (The only entry-time failures in the source are incidental:
`beta = 0` makes `-1/beta` raise ZeroDivisionError and a negative
iteration count makes `np.zeros` raise ValueError.  Shape mismatches are
outside this typed embedding; in the source they surface only as numpy
errors inside the first iteration, not at entry.) -/
theorem cdi_recon_no_entry_failure (gf : (Idx dims → ℝ) → ℝ → Idx dims → ℝ)
    (caller : CallerArrays dims) (beta start_avg : ℚ) (flag : String) (sw_flag : Bool)
    (sw_sigma sw_threshold : ℝ) (sw_start sw_end : ℚ) (sw_step : ℕ)
    (n_iterations : ℤ) (hbeta : beta ≠ 0) (h : 0 ≤ n_iterations) :
    ∃ r, cdi_recon dims gf caller beta start_avg flag sw_flag sw_sigma sw_threshold
        sw_start sw_end sw_step n_iterations = Except.ok r := by
  unfold cdi_recon
  rw [if_neg hbeta, if_neg (not_lt.mpr h)]
  exact ⟨_, rfl⟩

/-- C2 amended-claim witness: the no-failure theorem applied at a concrete
degenerate configuration (zero iterations, `start_avg = 1`). -/
theorem cdi_recon_no_entry_failure_witness :
    ((115 : ℚ)/100 ≠ 0 ∧ (0 : ℤ) ≤ 0) ∧
      ∃ r, cdi_recon dimsW gfW callerW (115/100) 1 "Complex" true 1 (1/10)
          (2/10) (8/10) 10 0 = Except.ok r :=
  ⟨⟨by norm_num, le_refl 0⟩, cdi_recon_no_entry_failure dimsW gfW callerW (115/100) 1
    "Complex" true 1 (1/10) (2/10) (8/10) 10 0 (by norm_num) (le_refl 0)⟩

/-- C8 counterexample: invoking the relative-error computation with a
zero-norm reference array does not fail with a degenerate-input error — it
silently returns the non-finite marker (numpy: `inf`/`nan` with at most a
RuntimeWarning, no exception). -/
theorem cal_relative_error_silent_nonfinite :
    cal_relative_error dimsW (fun _ => 0) (fun _ => 1) = none := by
  have h : arrNorm dimsW (fun _ => (0:ℂ)) = 0 := by
    simp [arrNorm]
  unfold cal_relative_error
  rw [if_pos h]

/-- C8 amended claim: degenerate numeric states do not raise; they silently
produce non-finite values.  A zero-norm reference makes
`cal_relative_error` return the non-finite marker, and a run whose
averaging threshold admits no contributions (`start_avg ≥ 1`) completes
normally and returns a non-finite averaged object (`obj_avg / 0`). -/
theorem degenerate_states_silent (gf : (Idx dims → ℝ) → ℝ → Idx dims → ℝ)
    (caller : CallerArrays dims) (beta start_avg : ℚ) (flag : String) (sw_flag : Bool)
    (sw_sigma sw_threshold : ℝ) (sw_start sw_end : ℚ) (sw_step : ℕ)
    (n_iterations : ℤ) (x_old x_new : Idx dims → ℂ)
    (hnorm : arrNorm dims x_old = 0) (hbeta : beta ≠ 0) (havg : 1 ≤ start_avg)
    (hn : 0 ≤ n_iterations) :
    cal_relative_error dims x_old x_new = none ∧
      ∃ out fc, cdi_recon dims gf caller beta start_avg flag sw_flag sw_sigma
          sw_threshold sw_start sw_end sw_step n_iterations = Except.ok (out, fc) ∧
        out.obj_avg = none := by
  constructor
  · unfold cal_relative_error
    rw [if_pos hnorm]
  · have hcast : ((n_iterations.toNat : ℕ) : ℚ) = ((n_iterations : ℤ) : ℚ) := by
      exact_mod_cast Int.toNat_of_nonneg hn
    have hmono : ∀ m : ℕ, m < n_iterations.toNat →
        avg_contrib dims (mkCtx dims gf caller.pattern beta start_avg flag sw_flag
          sw_sigma sw_threshold sw_start sw_end sw_step n_iterations) m = false := by
      intro m hm
      have h1 : (m : ℚ) < ((n_iterations : ℤ) : ℚ) := by
        rw [← hcast]
        exact_mod_cast hm
      have h2 : ((n_iterations : ℤ) : ℚ) ≤ start_avg * ((n_iterations : ℤ) : ℚ) :=
        le_mul_of_one_le_left (by exact_mod_cast hn) havg
      exact decide_eq_false (not_lt.mpr (le_of_lt (lt_of_lt_of_le h1 h2)))
    have hA : (runState dims (mkCtx dims gf caller.pattern beta start_avg flag sw_flag
        sw_sigma sw_threshold sw_start sw_end sw_step n_iterations)
        (cdiInit dims caller) n_iterations.toNat).avg_i = 0 :=
      runState_avg_i_const dims _ _ n_iterations.toNat hmono
    unfold cdi_recon
    rw [if_neg hbeta, if_neg (not_lt.mpr hn)]
    refine ⟨_, _, rfl, ?_⟩
    simp only [hA, if_pos]

/-- C8 amended-claim witness: the silent-degeneracy theorem applied at the
zero reference array and a concrete `start_avg = 1`, two-iteration run. -/
theorem degenerate_states_silent_witness :
    (arrNorm dimsW (fun _ => (0:ℂ)) = 0 ∧ (115:ℚ)/100 ≠ 0 ∧ (1:ℚ) ≤ 1 ∧ (0:ℤ) ≤ 2) ∧
      (cal_relative_error dimsW (fun _ => 0) (fun _ => (1:ℂ)) = none ∧
        ∃ out fc, cdi_recon dimsW gfW callerW (115/100) 1 "Complex" true 1 (1/10)
            (2/10) (8/10) 10 2 = Except.ok (out, fc) ∧ out.obj_avg = none) :=
  ⟨⟨by simp [arrNorm], by norm_num, le_refl 1, by norm_num⟩,
    degenerate_states_silent dimsW gfW callerW (115/100) 1 "Complex" true 1 (1/10)
      (2/10) (8/10) 10 2 (fun _ => 0) (fun _ => 1) (by simp [arrNorm]) (by norm_num)
      (le_refl 1) (by norm_num)⟩

/-- C9 (frame): every completed call leaves the caller's diffraction-pattern
buffer and initial-support buffer exactly as they were (the pattern is
copied at entry, line 351, and the support name is only ever rebound to
freshly allocated masks, line 396), while the caller's object buffer — the
only input array written through (`sample_obj += ...`, line 386) — holds
the final loop object. -/
theorem cdi_recon_frame (gf : (Idx dims → ℝ) → ℝ → Idx dims → ℝ)
    (caller : CallerArrays dims) (beta start_avg : ℚ) (flag : String) (sw_flag : Bool)
    (sw_sigma sw_threshold : ℝ) (sw_start sw_end : ℚ) (sw_step : ℕ)
    (n_iterations : ℤ) (hbeta : beta ≠ 0) (h : 0 ≤ n_iterations) :
    ∃ out fc, cdi_recon dims gf caller beta start_avg flag sw_flag sw_sigma
        sw_threshold sw_start sw_end sw_step n_iterations = Except.ok (out, fc) ∧
      fc.pattern = caller.pattern ∧ fc.sup = caller.sup ∧
      fc.obj = (runState dims (mkCtx dims gf caller.pattern beta start_avg flag sw_flag
        sw_sigma sw_threshold sw_start sw_end sw_step n_iterations)
        (cdiInit dims caller) n_iterations.toNat).sample_obj := by
  unfold cdi_recon
  rw [if_neg hbeta, if_neg (not_lt.mpr h)]
  exact ⟨_, _, rfl, rfl, rfl, rfl⟩

/-- C9 witness: the frame theorem applied at a concrete two-iteration run. -/
theorem cdi_recon_frame_witness :
    ((115 : ℚ)/100 ≠ 0 ∧ (0 : ℤ) ≤ 2) ∧
      ∃ out fc, cdi_recon dimsW gfW callerW (115/100) (8/10) "Complex" true 1 (1/10)
          (2/10) (8/10) 10 2 = Except.ok (out, fc) ∧
        fc.pattern = callerW.pattern ∧ fc.sup = callerW.sup ∧
        fc.obj = (runState dimsW (mkCtx dimsW gfW callerW.pattern (115/100) (8/10)
          "Complex" true 1 (1/10) (2/10) (8/10) 10 2)
          (cdiInit dimsW callerW) (2 : ℤ).toNat).sample_obj :=
  ⟨⟨by norm_num, by norm_num⟩, cdi_recon_frame dimsW gfW callerW (115/100) (8/10)
    "Complex" true 1 (1/10) (2/10) (8/10) 10 2 (by norm_num) (by norm_num)⟩

/-- C10: for every mode-flag string whose lowercased form is not "real",
each iteration — the flag is re-tested inside every iteration, lines
373 and 383 — and hence the whole reconstruction behave identically to the
"Complex" mode; no validation of the flag exists and no error is raised
for an unrecognised mode string (the call's result is exactly the
"Complex"-mode result, `Except.ok` whenever the iteration count is
non-negative). -/
theorem cdi_recon_mode_fallback (gf : (Idx dims → ℝ) → ℝ → Idx dims → ℝ)
    (caller : CallerArrays dims) (beta start_avg : ℚ) (flag : String) (sw_flag : Bool)
    (sw_sigma sw_threshold : ℝ) (sw_start sw_end : ℚ) (sw_step : ℕ)
    (n_iterations : ℤ) (h : strLower flag ≠ "real") :
    (∀ (s : LoopState dims) (n : ℕ),
      cdi_step dims (mkCtx dims gf caller.pattern beta start_avg flag sw_flag
        sw_sigma sw_threshold sw_start sw_end sw_step n_iterations) s n =
      cdi_step dims (mkCtx dims gf caller.pattern beta start_avg "Complex" sw_flag
        sw_sigma sw_threshold sw_start sw_end sw_step n_iterations) s n) ∧
    cdi_recon dims gf caller beta start_avg flag sw_flag sw_sigma sw_threshold
        sw_start sw_end sw_step n_iterations =
      cdi_recon dims gf caller beta start_avg "Complex" sw_flag sw_sigma sw_threshold
        sw_start sw_end sw_step n_iterations := by
  have hC : strLower "Complex" ≠ "real" := by decide
  have hstep : ∀ (s : LoopState dims) (n : ℕ),
      cdi_step dims (mkCtx dims gf caller.pattern beta start_avg flag sw_flag
        sw_sigma sw_threshold sw_start sw_end sw_step n_iterations) s n =
      cdi_step dims (mkCtx dims gf caller.pattern beta start_avg "Complex" sw_flag
        sw_sigma sw_threshold sw_start sw_end sw_step n_iterations) s n := by
    intro s n
    simp only [cdi_step, mkCtx, sw_fires, avg_contrib]
    rw [if_neg h, if_neg h, if_neg hC, if_neg hC]
  refine ⟨hstep, ?_⟩
  have hrun : ∀ (k : ℕ) (s0 : LoopState dims),
      runState dims (mkCtx dims gf caller.pattern beta start_avg flag sw_flag
        sw_sigma sw_threshold sw_start sw_end sw_step n_iterations) s0 k =
      runState dims (mkCtx dims gf caller.pattern beta start_avg "Complex" sw_flag
        sw_sigma sw_threshold sw_start sw_end sw_step n_iterations) s0 k := by
    intro k s0
    exact List.foldl_ext _ _ s0 fun s n _ => hstep s n
  simp only [cdi_recon]
  rw [hrun]

/-- C10 witness: the fallback theorem applied at the unrecognised flag
string "Banana" on a concrete run. -/
theorem cdi_recon_mode_fallback_witness :
    strLower "Banana" ≠ "real" ∧
      cdi_recon dimsW gfW callerW (115/100) (8/10) "Banana" true 1 (1/10)
          (2/10) (8/10) 10 2 =
        cdi_recon dimsW gfW callerW (115/100) (8/10) "Complex" true 1 (1/10)
          (2/10) (8/10) 10 2 :=
  ⟨by decide, (cdi_recon_mode_fallback dimsW gfW callerW (115/100) (8/10) "Banana" true
    1 (1/10) (2/10) (8/10) 10 2 (by decide)).2⟩

end ClaimTheoremsC

end CDI
